import Mathlib

/-!
Verification of the stream-to-dlna orchestration subsystem.

This file gives a shallow embedding, in Lean, of the pure cores of the
application's components — input validation (`app/main.py`), capability
detection and DIDL-Lite metadata construction (`app/dlna_client.py`),
the device registry (`app/device_manager.py`), the stream-format cache
(`app/stream_cache.py`) and SSDP discovery post-processing
(`app/discovery.py`) — and proves the specified properties about them.

Strings are modelled as `List Char` wrapped in `String`; Python string
primitives (`str.lower`, `str.split`, `str.strip`, substring tests,
`str.replace`, `int()`) are modelled by explicit list functions with the
same semantics on the ASCII inputs the claims range over.
-/

namespace StreamToDlna

/-! ## Python string primitives -/

/-- Python `str.lower()` restricted to ASCII: lower-case each character. -/
def lowerL (l : List Char) : List Char := l.map Char.toLower

/-- Python `needle in haystack`: contiguous-substring test. -/
def containsSub (pat : List Char) : List Char → Bool
  | [] => pat.isEmpty
  | x :: xs => pat.isPrefixOf (x :: xs) || containsSub pat xs

/-- Python `s.split(sep)` for a one-character separator: `"".split` is
`[""]`, and separators at the ends produce empty groups. -/
def splitOnChar (c : Char) : List Char → List (List Char)
  | [] => [[]]
  | x :: xs =>
    if x = c then [] :: splitOnChar c xs
    else
      match splitOnChar c xs with
      | [] => [[x]]
      | g :: gs => (x :: g) :: gs

/-- Python `str.strip()` with no argument (whitespace at both ends). -/
def pyStrip (l : List Char) : List Char :=
  ((l.dropWhile Char.isWhitespace).reverse.dropWhile Char.isWhitespace).reverse

/-- Decimal value of a digit string. -/
def digitsToNat (l : List Char) : Nat := l.foldl (fun n c => 10 * n + (c.toNat - 48)) 0

/-- Python `int(s)` on the strings reachable here (digits surrounded by
optional whitespace): strips whitespace, converts, `none` for `ValueError`. -/
def pyInt (l : List Char) : Option Nat :=
  let s := pyStrip l
  if s.isEmpty then none
  else if s.all Char.isDigit then some (digitsToNat s) else none

/-! ## `validate_ip_address` (`app/main.py`) -/

/-- One group of the regex `[0-9]{1,3}`. -/
def ipRegexOctet (g : List Char) : Bool :=
  decide (1 ≤ g.length ∧ g.length ≤ 3) && g.all Char.isDigit

/-- The regex test
`re.compile(r'^[0-9]{1,3}\.[0-9]{1,3}\.[0-9]{1,3}\.[0-9]{1,3}$').match(ip)`.
Python's `$` (without `re.MULTILINE`) matches at the end of the string or
just before one final newline, so the pattern also matches a dotted quad
followed by a single trailing `'\n'`. -/
def ipPatternMatch (l : List Char) : Bool :=
  let core := if l.getLast? == some '\n' then l.dropLast else l
  match splitOnChar '.' core with
  | [a, b, c, d] => ipRegexOctet a && ipRegexOctet b && ipRegexOctet c && ipRegexOctet d
  | _ => false

/-- `validate_ip_address` from `app/main.py`: the regex gate, then each
`'.'`-separated group must convert with `int()` to a value ≤ 255
(`ValueError` returns `False`). -/
def validate_ip_address (s : String) : Bool :=
  if !ipPatternMatch s.data then false
  else
    (splitOnChar '.' s.data).all fun o =>
      match pyInt o with
      | some v => decide (v ≤ 255)
      | none => false

/-! ## Capability detection (`app/dlna_client.py`) -/

/-- The capability record `detect_capabilities` builds: five boolean format
flags plus the verbatim ConnectionManager Sink string (`none` models
Python's `None`, the value stored when the probe failed). -/
structure Capabilities where
  supports_mp3 : Bool
  supports_aac : Bool
  supports_flac : Bool
  supports_wav : Bool
  supports_ogg : Bool
  raw_protocol_info : Option String
deriving DecidableEq, Repr

/-- The Sink entries `detect_capabilities` iterates over: the
comma-separated fields of the raw protocol-info string. A falsy probe
result (`None` or the empty string) yields no entries. -/
def sinkEntries (protocol_info : Option String) : List (List Char) :=
  match protocol_info with
  | none => []
  | some s => if s.data.isEmpty then [] else splitOnChar ',' s.data

/-- `detect_capabilities` from `app/dlna_client.py`: case-insensitive
substring matching of each Sink entry against the known MIME markers;
`raw_protocol_info` keeps the probe result verbatim. It is a total
function — a failed probe yields the all-false record, not an error. -/
def detect_capabilities (protocol_info : Option String) : Capabilities :=
  let protocols := sinkEntries protocol_info
  { supports_mp3 := protocols.any fun p =>
      containsSub "audio/mpeg".data (lowerL p) || containsSub "audio/mp3".data (lowerL p)
    supports_aac := protocols.any fun p =>
      containsSub "audio/aac".data (lowerL p) || containsSub "audio/x-aac".data (lowerL p) ||
        containsSub "audio/mp4".data (lowerL p)
    supports_flac := protocols.any fun p =>
      containsSub "audio/flac".data (lowerL p) || containsSub "audio/x-flac".data (lowerL p)
    supports_wav := protocols.any fun p =>
      containsSub "audio/wav".data (lowerL p) || containsSub "audio/x-wav".data (lowerL p)
    supports_ogg := protocols.any fun p =>
      containsSub "audio/ogg".data (lowerL p) || containsSub "audio/x-ogg".data (lowerL p)
    raw_protocol_info := protocol_info }

/-- The capability record produced when the `GetProtocolInfo` probe fails:
all flags false and the raw value the explicit unknown marker (`None`). -/
def unknown_capabilities : Capabilities := ⟨false, false, false, false, false, none⟩

/-- The part of a `DLNAClient` the capability claims concern: the
`capabilities` attribute (`None` until `detect_capabilities` runs). -/
structure DLNAClientState where
  capabilities : Option Capabilities
deriving DecidableEq, Repr

/-- `detect_capabilities` as the client runs it: it stores the computed
record on the client (`self.capabilities = capabilities`) and returns it. -/
def client_detect_capabilities (c : DLNAClientState) (probe : Option String) :
    DLNAClientState × Capabilities :=
  let caps := detect_capabilities probe
  ({ c with capabilities := some caps }, caps)

/-- The Sink extraction at the end of `get_protocol_info`: the `Sink`
element's text is returned only when the element exists and its text is
non-empty (`if sink_elem is not None and sink_elem.text`); a missing
element, empty text, non-200 response or transport error all yield `None`. -/
def extract_sink_text (t : Option String) : Option String :=
  match t with
  | some s => if s.isEmpty then none else some s
  | none => none

/-- `can_play_format` from `app/dlna_client.py` for a client whose
capabilities are already populated: family bucketing of the MIME type by
case-insensitive substring, then the matching flag. -/
def can_play_format (caps : Capabilities) (mime : String) : Bool :=
  let m := lowerL mime.data
  if containsSub "mpeg".data m || containsSub "mp3".data m then caps.supports_mp3
  else if containsSub "aac".data m || containsSub "mp4".data m ||
      containsSub "adts".data m || containsSub "m4a".data m then caps.supports_aac
  else if containsSub "flac".data m then caps.supports_flac
  else if containsSub "wav".data m then caps.supports_wav
  else if containsSub "ogg".data m then caps.supports_ogg
  else false

/-! ## `stop_if_playing` (`app/dlna_client.py`) -/

/-- The transport-state record `get_transport_info` returns on success
(`state`/`status`, each defaulting to `"UNKNOWN"` when the element is
missing, so both fields are always present). -/
structure TransportInfo where
  state : String
  status : String
deriving DecidableEq, Repr

/-- `stop_if_playing` from `app/dlna_client.py`, as a function of the
result of `get_transport_info` and of the result the `Stop` SOAP action
would report. Returns `(stop_sent, return_value)`: no transport info →
no `Stop`, report success; `Stop` is sent exactly in the `PLAYING` and
`PAUSED_PLAYBACK` states, and its result is returned; any other state →
no `Stop`, report success. -/
def stop_if_playing (info : Option TransportInfo) (stopResult : Bool) : Bool × Bool :=
  match info with
  | none => (false, true)
  | some i =>
    if i.state = "PLAYING" ∨ i.state = "PAUSED_PLAYBACK" then (true, stopResult)
    else (false, true)

/-! ## URL parsing (model of `urllib.parse.urlparse` as `validate_stream_url`
and the `/play` handler use it)

The model covers URLs without embedded ASCII control characters (the
WHATWG-motivated sanitisation CPython applies to tabs/newlines inside a URL
is out of scope; the claims range over well-formed URLs). -/

/-- The characters a URL scheme may contain (CPython `scheme_chars`). -/
def schemeChars : List Char :=
  "abcdefghijklmnopqrstuvwxyzABCDEFGHIJKLMNOPQRSTUVWXYZ0123456789+-.".data

/-- Scheme extraction of `urlsplit`: everything before the first `':'` is
the scheme when it is non-empty, starts with an ASCII letter and uses only
scheme characters; the scheme is returned lower-cased. Otherwise the
scheme is empty and the input is left whole. -/
def splitScheme (l : List Char) : List Char × List Char :=
  match l.dropWhile (· != ':') with
  | [] => ([], l)
  | _ :: rest =>
    let pre := l.takeWhile (· != ':')
    if (match pre with | [] => false | c :: _ => c.isAlpha) &&
        pre.all (fun c => schemeChars.contains c) then
      (lowerL pre, rest)
    else ([], l)

/-- Netloc extraction of `urlsplit`: present only when the remainder after
the scheme starts with `"//"`; runs to the next `'/'`, `'?'` or `'#'`. -/
def netlocOf (rest : List Char) : List Char :=
  match rest with
  | a :: b :: r =>
    if a = '/' ∧ b = '/' then r.takeWhile (fun c => !(c == '/' || c == '?' || c == '#'))
    else []
  | _ => []

/-- `urlsplit` raises `ValueError` ("Invalid IPv6 URL") when the netloc has
one bracket without the other; `validate_stream_url`'s `except` turns that
into a rejection. -/
def bracketMismatch (netloc : List Char) : Bool :=
  (netloc.contains '[') != (netloc.contains ']')

/-- The host-and-port portion of a netloc: everything after the last `'@'`
(`netloc.rpartition('@')`). -/
def hostinfoOf (netloc : List Char) : List Char :=
  (netloc.reverse.takeWhile (· != '@')).reverse

/-- The raw host of a netloc: the part between the first `'['` and the
following `']'` when a bracket is present (IPv6 literal), else everything
before the first `':'`. -/
def rawHostOf (netloc : List Char) : List Char :=
  let hi := hostinfoOf netloc
  if hi.contains '[' then ((hi.dropWhile (· != '[')).drop 1).takeWhile (· != ']')
  else hi.takeWhile (· != ':')

/-- The `hostname` property: the raw host lower-cased, `None` when empty. -/
def hostnameOf (netloc : List Char) : Option (List Char) :=
  let h := rawHostOf netloc
  if h.isEmpty then none else some (lowerL h)

/-- `urlparse(s).scheme` as a `String`. -/
def urlScheme (s : String) : String := String.mk (splitScheme s.data).1

/-- `urlparse(s).hostname` as an optional `String`. -/
def urlHostname (s : String) : Option String :=
  (hostnameOf (netlocOf (splitScheme s.data).2)).map String.mk

/-! ## `validate_stream_url` (`app/main.py`) -/

/-- The literal block-set of `validate_stream_url`. -/
def blockedHosts : List String :=
  ["localhost", "127.0.0.1", "0.0.0.0", "::1", "0:0:0:0:0:0:0:1"]

/-- `validate_stream_url` from `app/main.py`: requires a scheme and netloc,
allows only `http`/`https`, requires a hostname, then rejects the literal
block-set (compared lower-cased) and the `169.254.` / `fd00:` host
prefixes. A `ValueError` escaping `urlparse` (mismatched brackets) is
caught and yields `False`. -/
def validate_stream_url (s : String) : Bool :=
  let l := s.data
  let scheme := (splitScheme l).1
  let netloc := netlocOf (splitScheme l).2
  if bracketMismatch netloc then false
  else if scheme.isEmpty || netloc.isEmpty then false
  else if !(scheme == "http".data || scheme == "https".data) then false
  else
    match hostnameOf netloc with
    | none => false
    | some host =>
      if (blockedHosts.map String.data).contains host then false
      else if "169.254.".data.isPrefixOf host then false
      else if "fd00:".data.isPrefixOf host then false
      else true

/-! ## The `/play` orchestration decision (`app/main.py`) -/

/-- The HTTPS check of the `/play` handler:
`stream_url.lower().startswith('https://')`. -/
def is_https_url (s : String) : Bool := "https://".data.isPrefixOf (lowerL s.data)

/-- The transcode-or-passthrough decision of the `/play` handler
(`needs_transcoding`), as a function of the detected stream format
(`None` when undetectable; the empty string is falsy in the source's
`if stream_format:`), the capabilities stored for the selected device
(`None` when unavailable), and the stream URL. -/
def play_decision (fmt : Option String) (caps : Option Capabilities) (streamUrl : String) :
    Bool :=
  match fmt with
  | none => true
  | some f =>
    if f.isEmpty then true
    else
      match caps with
      | none => true
      | some c =>
        if can_play_format c f && !(is_https_url streamUrl) then false else true

/-- The JSON document `/play` returns on success. -/
structure PlayResponse where
  status : String
  stream_url : String
  playback_url : String
  transcoding : Bool
  format : Option String
deriving DecidableEq, Repr

/-- The success response of the `/play` handler: `playback_url` is the
transcoded-stream URL in transcoding mode and the original `stream_url` in
passthrough mode, and `transcoding` reports the decision. -/
def play_success_response (fmt : Option String) (caps : Option Capabilities)
    (streamUrl transcodedUrl : String) : PlayResponse :=
  let needs := play_decision fmt caps streamUrl
  { status := "playing"
    stream_url := streamUrl
    playback_url := if needs then transcodedUrl else streamUrl
    transcoding := needs
    format := fmt }

/-! ## DIDL-Lite metadata construction (`app/dlna_client.py`) -/

/-- One `str.replace(c, rep)` pass with a one-character needle: every
occurrence of `c` is replaced by `rep`. -/
def escStep (c : Char) (rep : List Char) (l : List Char) : List Char :=
  l.flatMap fun x => if x = c then rep else [x]

/-- The escaping chain of `_build_didl_metadata`:
`.replace('&','&amp;').replace('<','&lt;').replace('>','&gt;')`
`.replace('"','&quot;').replace("'",'&apos;')`, applied in that order. -/
def escAll (l : List Char) : List Char :=
  escStep '\'' "&apos;".data (escStep '"' "&quot;".data (escStep '>' "&gt;".data
    (escStep '<' "&lt;".data (escStep '&' "&amp;".data l))))

/-- The title/URL escaping of `_build_didl_metadata`, as a `String`. -/
def pyXmlEscape (s : String) : String := String.mk (escAll s.data)

/-- The per-character XML-entity substitution the escaping chain amounts
to (stated by C5; compared against `escAll`, which embeds the source). -/
def escCharSpec (x : Char) : List Char :=
  if x = '&' then "&amp;".data
  else if x = '<' then "&lt;".data
  else if x = '>' then "&gt;".data
  else if x = '"' then "&quot;".data
  else if x = '\'' then "&apos;".data
  else [x]

/-- The MIME aliases `_get_protocol_info_for_mime` tries, in preference
order: an AAC-family input tries `audio/mp4` first; an MP3-family input
tries `audio/mpeg` then `audio/mp3`; anything else tries only itself
lower-cased. -/
def mimeAliases (mime : String) : List (List Char) :=
  let m := lowerL mime.data
  if containsSub "aac".data m then
    ["audio/mp4", "audio/aac", "audio/aacp", "audio/x-aac"].map String.data
  else if containsSub "mp3".data m || containsSub "mpeg".data m then
    ["audio/mpeg", "audio/mp3"].map String.data
  else [m]

/-- The per-entry match of `_get_protocol_info_for_mime`: the entry's third
`':'`-separated field (the content format), lower-cased, equals the alias,
and the entry contains `http-get` case-insensitively. -/
def protoMatches (al : List Char) (proto : List Char) : Bool :=
  (match (splitOnChar ':' proto).get? 2 with
   | some pm => lowerL pm == al
   | none => false) && containsSub "http-get".data (lowerL proto)

/-- `_get_protocol_info_for_mime`: `None` without stored capabilities or
with a falsy raw Sink string; otherwise the first Sink entry matching the
first alias that matches anything, whitespace-stripped. -/
def get_protocol_info_for_mime (caps : Option Capabilities) (mime : String) : Option String :=
  match caps with
  | none => none
  | some c =>
    match c.raw_protocol_info with
    | none => none
    | some raw =>
      if raw.isEmpty then none
      else
        ((mimeAliases mime).findSome? fun al =>
          ((splitOnChar ',' raw.data).find? (protoMatches al)).map pyStrip).map String.mk

/-- The DLNA profile name `_build_didl_metadata` synthesizes for a MIME
family: `MP3` for mpeg/mp3, `AAC_ISO` for aac/mp4, `FLAC` for flac, and
`MP3` as the default. -/
def dlnaProfileName (mime : String) : String :=
  let m := lowerL mime.data
  if containsSub "mpeg".data m || containsSub "mp3".data m then "MP3"
  else if containsSub "aac".data m || containsSub "mp4".data m then "AAC_ISO"
  else if containsSub "flac".data m then "FLAC"
  else "MP3"

/-- The fixed DLNA streaming flags of the synthesized protocolInfo. -/
def dlnaFlagsSuffix : String :=
  ";DLNA.ORG_OP=01;DLNA.ORG_CI=0;DLNA.ORG_FLAGS=01700000000000000000000000000000"

/-- The synthesized protocolInfo of `_build_didl_metadata`'s fallback. -/
def synthProtocolInfo (mime : String) : String :=
  "http-get:*:" ++ mime ++ ":DLNA.ORG_PN=" ++ dlnaProfileName mime ++ dlnaFlagsSuffix

/-- The protocolInfo `_build_didl_metadata` puts on the `<res>` element:
the device-declared entry when one matches, else the synthesized one. -/
def protocolInfoResolved (caps : Option Capabilities) (mime : String) : String :=
  match get_protocol_info_for_mime caps mime with
  | some p => p
  | none => synthProtocolInfo mime

/-- The DIDL-Lite template up to the title. -/
def didlHead : String :=
  "<DIDL-Lite xmlns=\"urn:schemas-upnp-org:metadata-1-0/DIDL-Lite/\" xmlns:dc=\"http://purl.org/dc/elements/1.1/\" xmlns:upnp=\"urn:schemas-upnp-org:metadata-1-0/upnp/\" xmlns:dlna=\"urn:schemas-upnp-org:metadata-1-0/dlna/\">\n  <item id=\"0\" parentID=\"-1\" restricted=\"1\">\n    <dc:title>"

/-- The DIDL-Lite template between the title and the protocolInfo. -/
def didlAfterTitle : String :=
  "</dc:title>\n    <upnp:class>object.item.audioItem.musicTrack</upnp:class>\n    <res protocolInfo=\""

/-- The DIDL-Lite template between the protocolInfo and the URL. -/
def didlAfterProto : String := "\">"

/-- The DIDL-Lite template after the URL. -/
def didlTail : String := "</res>\n  </item>\n</DIDL-Lite>"

/-- `_build_didl_metadata` from `app/dlna_client.py` (argument order of the
source: url, title, mime_type; the client's stored capabilities are passed
explicitly). -/
def build_didl_metadata (caps : Option Capabilities) (url title mime : String) : String :=
  let titleEsc := pyXmlEscape title
  let urlEsc := pyXmlEscape url
  let protocolInfo := protocolInfoResolved caps mime
  didlHead ++ titleEsc ++ didlAfterTitle ++ protocolInfo ++ didlAfterProto ++ urlEsc ++ didlTail

/-- Modelled from the spec's words, for comparison in C3: a loopback
literal is an IPv4 dotted quad whose first octet is 127, or an IPv6
loopback form (`::1` and its expansions). -/
def isLoopbackLiteralSpec (h : String) : Bool :=
  (match splitOnChar '.' h.data with
   | [a, b, c, d] =>
     [a, b, c, d].all (fun g => !g.isEmpty && g.all Char.isDigit && decide (digitsToNat g ≤ 255))
       && digitsToNat a == 127
   | _ => false)
  || h == "::1" || h == "0:0:0:0:0:0:0:1"
  || h == "0000:0000:0000:0000:0000:0000:0000:0001"

/-- The characterization of `validate_stream_url` the amended C3 states,
written as the amended claim words it: scheme `http`/`https`, a
well-bracketed non-empty netloc, a hostname, and the hostname neither in
the literal block-set nor carrying the `169.254.` or `fd00:` prefix. -/
def validate_stream_url_spec (s : String) : Bool :=
  (urlScheme s == "http" || urlScheme s == "https") &&
  !bracketMismatch (netlocOf (splitScheme s.data).2) &&
  !(netlocOf (splitScheme s.data).2).isEmpty &&
  (match urlHostname s with
   | none => false
   | some h =>
     !((blockedHosts.map String.data).contains h.data) &&
     !("169.254.".data.isPrefixOf h.data) && !("fd00:".data.isPrefixOf h.data))

/-! ## SSDP discovery post-processing (`app/discovery.py`) -/

/-- A device record as `_fetch_device_info` builds it (`device_id` can be
`None`; `capabilities` is attached on selection). -/
structure Device where
  id : Option String
  friendly_name : String
  manufacturer : String
  model_name : String
  ip : String
  port : Nat
  location : String
  control_url : String
  connection_manager_url : String
  udn : String
  capabilities : Option Capabilities
deriving DecidableEq, Repr

/-- Python `str.upper()` restricted to ASCII. -/
def toUpperL (l : List Char) : List Char := l.map Char.toUpper

/-- Python `s.split(sep)` for a multi-character separator (`sep = c :: cs`,
non-empty): non-overlapping splits, left to right. -/
def splitOnSeq (c : Char) (cs : List Char) : List Char → List (List Char)
  | [] => [[]]
  | x :: xs =>
    if (c :: cs).isPrefixOf (x :: xs) then
      [] :: splitOnSeq c cs ((x :: xs).drop (cs.length + 1))
    else
      match splitOnSeq c cs xs with
      | [] => [[x]]
      | g :: gs => (x :: g) :: gs
termination_by l => l.length
decreasing_by
  · simp [List.length_drop]
    omega
  · simp

/-- Python `s.replace(old, "")` for a non-empty `old`: split and rejoin. -/
def removeAllSeq (c : Char) (cs : List Char) (l : List Char) : List Char :=
  (splitOnSeq c cs l).flatten

/-- The `LOCATION` value `_parse_ssdp_response` leaves in its header dict:
split the response on CRLF, skip the status line, and for each line
containing `':'` take `key.strip().upper()` / `value.strip()`; a later
`LOCATION` line overwrites an earlier one. -/
def parseLocationHeader (resp : String) : Option String :=
  match splitOnSeq '\r' ['\n'] resp.data with
  | [] => none
  | _ :: rest =>
    rest.foldl (fun acc line =>
      if line.contains ':' then
        if toUpperL (pyStrip (line.takeWhile (· != ':'))) == "LOCATION".data then
          some (String.mk (pyStrip ((line.dropWhile (· != ':')).drop 1)))
        else acc
      else acc) none

/-- The location-gathering loop of `discover`: every response contributes
its `LOCATION` header value when it is non-empty (`if location`) and not
seen before (`seen_locations`), in arrival order. -/
def collectLocations (resps : List String) : List String :=
  resps.foldl (fun acc r =>
    match parseLocationHeader r with
    | none => acc
    | some loc =>
      if loc.isEmpty then acc
      else if loc ∈ acc then acc else acc ++ [loc]) []

/-- A `<service>` element of a device description: the text of its
`serviceType` and `controlURL` children (`none` for a missing or empty
child — a `serviceType` with `None` text makes the source raise inside its
`try`, which also ends in the device being dropped or defaulted). -/
structure DeviceService where
  serviceType : Option String
  controlURL : Option String
deriving DecidableEq, Repr

/-- A parsed device-description document (the `get_text` fields default to
the empty string in the source). -/
structure DeviceDescription where
  friendly_name : String
  manufacturer : String
  model_name : String
  udn : String
  services : List DeviceService
deriving DecidableEq, Repr

/-- The port of a netloc (`parsed_url.port`), `none` when absent or
non-numeric (the source's `ValueError` case is out of the claims' scope). -/
def portOf (netloc : List Char) : Option Nat :=
  let hi := hostinfoOf netloc
  let p :=
    if hi.contains '[' then (((hi.dropWhile (· != ']')).drop 1).dropWhile (· != ':')).drop 1
    else (hi.dropWhile (· != ':')).drop 1
  if p.isEmpty then none
  else if p.all Char.isDigit then some (digitsToNat p) else none

/-- Resolution of a service `controlURL` against the description URL's
scheme/host/port: absolute `http...` URLs pass through, a relative path
gets a leading `'/'` when missing and is appended to the base. -/
def resolveControlPath (scheme host : String) (port : Nat) (p : String) : String :=
  if "http".data.isPrefixOf p.data then p
  else if "/".data.isPrefixOf p.data then
    scheme ++ "://" ++ host ++ ":" ++ toString port ++ p
  else scheme ++ "://" ++ host ++ ":" ++ toString port ++ "/" ++ p

/-- `_find_av_transport_control_url` / `_find_connection_manager_control_url`:
the first service whose `serviceType` text contains the key and which has a
`controlURL` child wins; otherwise the common-default fallback path. -/
def findServiceControlUrl (key : String) (svcs : List DeviceService)
    (scheme host : String) (port : Nat) (fallbackPath : String) : String :=
  match svcs.findSome? (fun s =>
    match s.serviceType, s.controlURL with
    | some t, some p =>
      if containsSub key.data t.data then some (resolveControlPath scheme host port p)
      else none
    | _, _ => none) with
  | some u => u
  | none => scheme ++ "://" ++ host ++ ":" ++ toString port ++ fallbackPath

/-- Whether the description declares an `AVTransport` service (the
verification loop of `_fetch_device_info`). -/
def hasAVTService (svcs : List DeviceService) : Bool :=
  svcs.any fun s =>
    match s.serviceType with
    | some t => containsSub "AVTransport".data t.data
    | none => false

/-- The host `_fetch_device_info` extracts from the description URL
(`parsed_url.hostname or ''`). -/
def discoveredHost (location : String) : String :=
  match hostnameOf (netlocOf (splitScheme location.data).2) with
  | some h => String.mk h
  | none => ""

/-- The port `_fetch_device_info` extracts (`parsed_url.port or 80`). -/
def discoveredPort (location : String) : Nat :=
  match portOf (netlocOf (splitScheme location.data).2) with
  | some n => if n = 0 then 80 else n
  | none => 80

/-- The AVTransport control URL of a description (with fallback). -/
def avtControlUrl (location : String) (desc : DeviceDescription) : String :=
  findServiceControlUrl "AVTransport" desc.services (urlScheme location)
    (discoveredHost location) (discoveredPort location) "/AVTransport/ctrl"

/-- The device record `_fetch_device_info` returns when it keeps the
device (`udn.replace('uuid:', '')`, empty `udn` giving a `None` id). -/
def mkDiscoveredDevice (location : String) (desc : DeviceDescription) : Device :=
  { id := if desc.udn.isEmpty then none
          else some (String.mk (removeAllSeq 'u' "uid:".data desc.udn.data))
    friendly_name := desc.friendly_name
    manufacturer := desc.manufacturer
    model_name := desc.model_name
    ip := discoveredHost location
    port := discoveredPort location
    location := location
    control_url := avtControlUrl location desc
    connection_manager_url :=
      findServiceControlUrl "ConnectionManager" desc.services (urlScheme location)
        (discoveredHost location) (discoveredPort location) "/ConnectionManager/ctrl"
    udn := desc.udn
    capabilities := none }

/-- `_fetch_device_info` from `app/discovery.py`, as a function of the
description document fetched from `location`: resolve the AVTransport
control URL (with fallback), and when that URL is falsy or ends in the
fallback path `/AVTransport/ctrl`, keep the device only if some service
really is an `AVTransport` — a MediaServer answering the MediaRenderer
search is dropped here. -/
def fetch_device_info (location : String) (desc : DeviceDescription) : Option Device :=
  let control_url := avtControlUrl location desc
  if control_url.isEmpty || "/AVTransport/ctrl".data.isSuffixOf control_url.data then
    if hasAVTService desc.services then some (mkDiscoveredDevice location desc) else none
  else some (mkDiscoveredDevice location desc)

/-- `discover`'s pure core, as a function of the SSDP responses received
within the timeout and of the description fetch (`none` models a non-200
response, a fetch error or an unparsable document): deduplicate locations,
fetch each once, keep the parsed devices. The source fetches concurrently
and appends in completion order; the claims settled here are order
insensitive. -/
def discover (resps : List String) (fetch : String → Option DeviceDescription) :
    List Device :=
  (collectLocations resps).filterMap fun loc => (fetch loc).bind (fetch_device_info loc)

/-! ## JSON documents (`json.dump` / `json.load`)

The persisted state documents are JSON; `json.dump` followed by
`json.load` round-trips the dict/list/str/num/bool/null values the
application stores. Timestamps (`time.time()` floats) are modelled as
`Nat` ticks. -/

/-- A JSON value as the two stores persist them. -/
inductive Json where
  | null
  | bool (b : Bool)
  | num (n : Nat)
  | str (s : String)
  | arr (elems : List Json)
  | obj (fields : List (String × Json))

/-- Python `dict.get(k)` on a loaded JSON object. -/
def jget (fields : List (String × Json)) (k : String) : Option Json :=
  (fields.find? (fun p => p.1 == k)).map (·.2)

def encodeOptStr : Option String → Json
  | none => .null
  | some s => .str s

def asBool : Json → Option Bool
  | .bool b => some b
  | _ => none

def asStr : Json → Option String
  | .str s => some s
  | _ => none

def asOptStr : Json → Option (Option String)
  | .null => some none
  | .str s => some (some s)
  | _ => none

def asNum : Json → Option Nat
  | .num n => some n
  | _ => none

/-- Reading an optional sub-document: JSON `null` is Python `None`; any
other value must decode. -/
def jdecodeOpt {α : Type} (dec : Json → Option α) : Json → Option (Option α)
  | Json.null => some none
  | j => (dec j).map some

/-! ## Device records and the Device Registry (`app/device_manager.py`) -/

def encodeCapabilities (c : Capabilities) : Json :=
  .obj [("supports_mp3", .bool c.supports_mp3), ("supports_aac", .bool c.supports_aac),
        ("supports_flac", .bool c.supports_flac), ("supports_wav", .bool c.supports_wav),
        ("supports_ogg", .bool c.supports_ogg),
        ("raw_protocol_info", encodeOptStr c.raw_protocol_info)]

def decodeCapabilities (j : Json) : Option Capabilities :=
  match j with
  | .obj f => do
    let m3 ← (jget f "supports_mp3").bind asBool
    let ma ← (jget f "supports_aac").bind asBool
    let mf ← (jget f "supports_flac").bind asBool
    let mw ← (jget f "supports_wav").bind asBool
    let mo ← (jget f "supports_ogg").bind asBool
    let raw ← (jget f "raw_protocol_info").bind asOptStr
    return ⟨m3, ma, mf, mw, mo, raw⟩
  | _ => none

def encodeDevice (d : Device) : Json :=
  .obj [("id", encodeOptStr d.id), ("friendly_name", .str d.friendly_name),
        ("manufacturer", .str d.manufacturer), ("model_name", .str d.model_name),
        ("ip", .str d.ip), ("port", .num d.port), ("location", .str d.location),
        ("control_url", .str d.control_url),
        ("connection_manager_url", .str d.connection_manager_url),
        ("udn", .str d.udn),
        ("capabilities", match d.capabilities with
          | none => Json.null
          | some c => encodeCapabilities c)]

def decodeDevice (j : Json) : Option Device :=
  match j with
  | .obj f => do
    let did ← (jget f "id").bind asOptStr
    let fn ← (jget f "friendly_name").bind asStr
    let mfr ← (jget f "manufacturer").bind asStr
    let mdl ← (jget f "model_name").bind asStr
    let ip ← (jget f "ip").bind asStr
    let port ← match jget f "port" with
      | some (Json.num n) => some n
      | _ => none
    let loc ← (jget f "location").bind asStr
    let cu ← (jget f "control_url").bind asStr
    let cmu ← (jget f "connection_manager_url").bind asStr
    let udn ← (jget f "udn").bind asStr
    let caps ← match jget f "capabilities" with
      | some cj => jdecodeOpt decodeCapabilities cj
      | none => some none
    return ⟨did, fn, mfr, mdl, ip, port, loc, cu, cmu, udn, caps⟩
  | _ => none

/-- The registry's state document: `current_device`, `cached_devices`,
`last_scan_time`. -/
structure DMState where
  current_device : Option Device
  cached_devices : List Device
  last_scan_time : Option Nat
deriving DecidableEq, Repr

def encodeDMState (m : DMState) : Json :=
  .obj [("current_device", match m.current_device with
          | none => Json.null
          | some d => encodeDevice d),
        ("cached_devices", .arr (m.cached_devices.map encodeDevice)),
        ("last_scan_time", match m.last_scan_time with
          | none => Json.null
          | some t => Json.num t)]

def decodeDMState (j : Json) : Option DMState :=
  match j with
  | .obj f => do
    let cur ← match jget f "current_device" with
      | some dj => jdecodeOpt decodeDevice dj
      | none => some none
    let cache ← match jget f "cached_devices" with
      | some (Json.arr l) => l.mapM decodeDevice
      | some _ => none
      | none => some []
    let lst ← match jget f "last_scan_time" with
      | some tj => jdecodeOpt asNum tj
      | none => some none
    return ⟨cur, cache, lst⟩
  | _ => none

/-- `_load_state`: a missing state file leaves the fields as they are; an
unreadable document resets them (the `except` branch); otherwise the
fields are replaced by the document's values. `disk` is the backing
store's content. -/
def dm_load_state (m : DMState) (disk : Option Json) : DMState :=
  match disk with
  | none => m
  | some j =>
    match decodeDMState j with
    | some doc => doc
    | none => ⟨none, [], none⟩

/-- `select_device`: set `current_device` and persist the whole document
(`_save_state`); returns the new in-memory state and the new store
content (the successful-write execution). -/
def dm_select_device (m : DMState) (d : Device) : DMState × Option Json :=
  let m2 := { m with current_device := some d }
  (m2, some (encodeDMState m2))

/-- `get_current_device`: always reload from the backing store, then
return (a copy of) `current_device`. -/
def dm_get_current_device (m : DMState) (disk : Option Json) : Option Device × DMState :=
  let m2 := dm_load_state m disk
  (m2.current_device, m2)

/-! ## File-system writes of the two stores -/

/-- A file-system operation a persisting write performs. -/
inductive FsOp where
  | write (path : String) (content : Json)
  | rename (src dst : String)

/-- The writes `_save_state` performs (`app/device_manager.py`): dump the
document to `<state_file>.tmp`, then `os.replace` it over the state file. -/
def dm_save_state_ops (state_file : String) (m : DMState) : List FsOp :=
  [.write (state_file ++ ".tmp") (encodeDMState m), .rename (state_file ++ ".tmp") state_file]

/-- Whether an operation list is one atomic write-to-temp-then-rename onto
the given final path. -/
def isAtomicTempWrite (final : String) (ops : List FsOp) : Bool :=
  match ops with
  | [FsOp.write tmp _, FsOp.rename src dst] => tmp == src && dst == final && !(tmp == final)
  | _ => false

/-! ## Stream Format Cache (`app/stream_cache.py`) -/

/-- One cache entry (`url` is kept for diagnostics; `timestamp` from
`time.time()`). -/
structure CacheEntry where
  url : String
  mime_type : String
  detection_method : String
  timestamp : Nat
deriving DecidableEq, Repr

/-- The in-memory cache dict, keyed by the URL-derived cache key. -/
abbrev CacheMap := List (String × CacheEntry)

/-- Modelled abstractly: the source derives the key as the first 16 hex
characters of SHA-256 of the URL (`_get_cache_key`); the claims settled
here do not depend on the key derivation, so the model keeps the URL
itself as the key. -/
def cacheKey (url : String) : String := url

def encodeCacheEntry (e : CacheEntry) : Json :=
  .obj [("url", .str e.url), ("mime_type", .str e.mime_type),
        ("detection_method", .str e.detection_method), ("timestamp", .num e.timestamp)]

def encodeCacheMap (m : CacheMap) : Json :=
  .obj (m.map fun p => (p.1, encodeCacheEntry p.2))

/-- `_cleanup_expired`: drop entries older than the TTL. -/
def cleanupExpired (ttl now : Nat) (cache : CacheMap) : CacheMap :=
  cache.filter fun p => !(decide (now - p.2.timestamp > ttl))

/-- The writes `_save_cache` performs: sweep expired entries, then one
in-place `open(cache_file, 'w')` dump of the cache file (no temporary
file, no rename). Returns the operations and the swept in-memory cache. -/
def sc_save_cache_ops (cache_file : String) (ttl now : Nat) (cache : CacheMap) :
    List FsOp × CacheMap :=
  let cleaned := cleanupExpired ttl now cache
  ([FsOp.write cache_file (encodeCacheMap cleaned)], cleaned)

/-- `get` of the Stream Format Cache: looks the key up in the in-memory
dict `mem` only — the backing store's content `disk` is available to the
operation but never consulted (the source performs no reload) — and
lazily deletes an expired entry. Returns the result and the new in-memory
dict. -/
def sc_get (mem : CacheMap) (_disk : Option Json) (now ttl : Nat) (url : String) :
    Option CacheEntry × CacheMap :=
  let key := cacheKey url
  match mem.find? (fun p => p.1 == key) with
  | none => (none, mem)
  | some p =>
    if now - p.2.timestamp > ttl then (none, mem.filter fun q => !(q.1 == key))
    else (some p.2, mem)

/-- A concrete, fresh cache entry for the C7 counterexample. -/
def cexEntry : CacheEntry := ⟨"http://radio.example.com/a", "audio/mpeg", "head", 5⟩

/-! ## Theorems -/

/-- The head of a non-empty `dropWhile` result fails the predicate. -/
theorem dropWhile_head_not {α : Type} (p : α → Bool) :
    ∀ (l : List α) (x : α) (xs : List α), l.dropWhile p = x :: xs → p x = false := by
  intro l
  induction l with
  | nil => intro x xs h; simp at h
  | cons a as ih =>
    intro x xs h
    by_cases hp : p a = true
    · rw [List.dropWhile_cons_of_pos hp] at h
      exact ih x xs h
    · rw [Bool.not_eq_true] at hp
      rw [List.dropWhile_cons_of_neg (by simp [hp])] at h
      cases h
      exact hp

/-- `splitScheme` either finds no scheme and leaves the input whole, or
splits the input at its first `':'` and lower-cases the scheme. -/
theorem splitScheme_cases (l : List Char) :
    splitScheme l = ([], l) ∨
    ∃ pre rest, l = pre ++ ':' :: rest ∧ splitScheme l = (lowerL pre, rest) := by
  unfold splitScheme
  cases hd : l.dropWhile (· != ':') with
  | nil =>
    simp only [hd]
    exact Or.inl trivial
  | cons x rest =>
    have hx' : x = ':' := by simpa using dropWhile_head_not _ l x rest hd
    simp only [hd]
    split
    · right
      refine ⟨l.takeWhile (· != ':'), rest, ?_, rfl⟩
      conv_lhs => rw [← List.takeWhile_append_dropWhile (p := (· != ':')) (l := l)]
      rw [hd, hx']
    · left
      rfl

/-- A non-empty netloc forces the after-scheme remainder to start `"//"`. -/
theorem netlocOf_ne_nil_shape (rest : List Char) (h : netlocOf rest ≠ []) :
    ∃ r, rest = '/' :: '/' :: r := by
  match rest with
  | [] => simp [netlocOf] at h
  | [a] => simp [netlocOf] at h
  | a :: b :: r =>
    by_cases hab : a = '/' ∧ b = '/'
    · exact ⟨r, by rw [hab.1, hab.2]⟩
    · simp [netlocOf, hab] at h

/-- `lowerL` distributes over append. -/
theorem lowerL_append (a b : List Char) : lowerL (a ++ b) = lowerL a ++ lowerL b :=
  List.map_append _ a b

/-- A `validate_stream_url`-accepted URL has scheme `http` or `https` and a
non-empty netloc. -/
theorem validate_parts (s : String) (hv : validate_stream_url s = true) :
    ((splitScheme s.data).1 = "http".data ∨ (splitScheme s.data).1 = "https".data) ∧
    netlocOf (splitScheme s.data).2 ≠ [] := by
  unfold validate_stream_url at hv
  by_cases hb : bracketMismatch (netlocOf (splitScheme s.data).2) = true
  · simp [hb] at hv
  · rw [Bool.not_eq_true] at hb
    simp only [hb, if_false] at hv
    by_cases he : ((splitScheme s.data).1.isEmpty || (netlocOf (splitScheme s.data).2).isEmpty) = true
    · simp [he] at hv
    · rw [Bool.not_eq_true, Bool.or_eq_false_iff] at he
      simp only [he.1, he.2, Bool.or_self, if_false] at hv
      by_cases hs : ((splitScheme s.data).1 == "http".data ||
          (splitScheme s.data).1 == "https".data) = true
      · rw [Bool.or_eq_true, beq_iff_eq, beq_iff_eq] at hs
        refine ⟨hs, ?_⟩
        intro hnil
        rw [hnil] at he
        simp [List.isEmpty] at he
      · simp [hs] at hv

/-- Under validation, the handler's textual HTTPS test
(`stream_url.lower().startswith('https://')`) agrees exactly with the
parsed scheme being `https`. -/
theorem is_https_url_eq (s : String) (hv : validate_stream_url s = true) :
    is_https_url s = ((splitScheme s.data).1 == "https".data) := by
  obtain ⟨hsch, hnl⟩ := validate_parts s hv
  rcases hsch with h | h
  · -- scheme is http: neither side holds
    rw [h]
    have hrhs : (("http".data : List Char) == "https".data) = false := by decide
    rw [hrhs]
    rcases splitScheme_cases s.data with hs | ⟨pre, rest, heq, hsp⟩
    · rw [hs] at h
      have h' : ([] : List Char) = "http".data := h
      exact absurd h' (by decide)
    · rw [hsp] at h
      simp only at h
      unfold is_https_url
      rw [heq, lowerL_append]
      have hcol : lowerL (':' :: rest) = ':' :: lowerL rest := by
        simp [lowerL]
      rw [hcol, h]
      by_contra hcontra
      rw [Bool.not_eq_false, List.isPrefixOf_iff_prefix] at hcontra
      obtain ⟨t, ht⟩ := hcontra
      have hdata : ("https://".data : List Char) = ['h', 't', 't', 'p', 's', ':', '/', '/'] := rfl
      rw [hdata] at ht
      simp only [List.cons_append, List.nil_append] at ht
      injection ht with h1 ht
      injection ht with h2 ht
      injection ht with h3 ht
      injection ht with h4 ht
      injection ht with h5 ht
      exact absurd h5 (by decide)
  · -- scheme is https: both sides hold
    rw [h]
    have hrhs : (("https".data : List Char) == "https".data) = true := by decide
    rw [hrhs]
    rcases splitScheme_cases s.data with hs | ⟨pre, rest, heq, hsp⟩
    · rw [hs] at h
      have h' : ([] : List Char) = "https".data := h
      exact absurd h' (by decide)
    · rw [hsp] at h
      simp only at h
      rw [hsp] at hnl
      simp only at hnl
      obtain ⟨r, hr⟩ := netlocOf_ne_nil_shape rest hnl
      unfold is_https_url
      rw [heq, hr, lowerL_append]
      have hcol : lowerL (':' :: '/' :: '/' :: r) = ':' :: '/' :: '/' :: lowerL r := by
        simp [lowerL]
      rw [hcol, h]
      have hshape : ("https".data : List Char) ++ ':' :: '/' :: '/' :: lowerL r =
          "https://".data ++ lowerL r := rfl
      rw [hshape, List.isPrefixOf_iff_prefix]
      exact List.prefix_append _ _

/-- `String.mk` against a string literal under `==`. -/
theorem mk_beq_eq (a : List Char) (t : String) : (String.mk a == t) = (a == t.data) := by
  rw [Bool.eq_iff_iff, beq_iff_eq, beq_iff_eq, String.ext_iff]

/-- `List.isPrefixOf` as a `decide`. -/
theorem isPrefixOf_eq_decide (a b : List Char) : a.isPrefixOf b = decide (a <+: b) := by
  rw [Bool.eq_iff_iff, List.isPrefixOf_iff_prefix, decide_eq_true_iff]

/-- A MIME type that is the empty string matches no capability family. -/
theorem can_play_format_empty (c : Capabilities) : can_play_format c "" = false := rfl

/-- C3 counterexample: the claim's host filter does not match the code's.
`http://127.0.0.2/` targets an IPv4 loopback literal, which the claim says
is rejected, yet `validate_stream_url` accepts it (the code blocks only the
literal `127.0.0.1`); conversely `http://[fd00::1]/` targets a host that is
neither localhost, a loopback literal, nor a `169.254.*` address — the
claim says it is accepted — yet the code rejects it (the `fd00:` block). -/
theorem validate_stream_url_loopback_cex :
    validate_stream_url "http://127.0.0.2/" = true ∧
    urlHostname "http://127.0.0.2/" = some "127.0.0.2" ∧
    isLoopbackLiteralSpec "127.0.0.2" = true ∧
    validate_stream_url "http://[fd00::1]/" = false ∧
    urlHostname "http://[fd00::1]/" = some "fd00::1" ∧
    urlScheme "http://[fd00::1]/" = "http" ∧
    isLoopbackLiteralSpec "fd00::1" = false ∧
    ("fd00::1" == "localhost") = false ∧
    ("169.254.".data.isPrefixOf "fd00::1".data) = false := by
  decide

/-- C3 amended: `validate_stream_url` accepts a URL exactly when its scheme
is `http` or `https`, its netloc is well-bracketed and non-empty, it has a
hostname, and the hostname is not in the literal block-set
(`localhost`, `127.0.0.1`, `0.0.0.0`, `::1`, `0:0:0:0:0:0:0:1`) and starts
with neither `169.254.` nor `fd00:`; in particular `file`, `javascript` and
`data` URLs, scheme-less inputs and host-less inputs are rejected. -/
theorem validate_stream_url_characterization :
    (∀ s : String, validate_stream_url s = validate_stream_url_spec s) ∧
    validate_stream_url "file:///etc/passwd" = false ∧
    validate_stream_url "javascript:alert(1)" = false ∧
    validate_stream_url "data:text/html,x" = false ∧
    validate_stream_url "example.com/stream" = false ∧
    validate_stream_url "http://" = false ∧
    validate_stream_url "http:///path" = false := by
  refine ⟨fun s => ?_, by decide, by decide, by decide, by decide, by decide, by decide⟩
  unfold validate_stream_url validate_stream_url_spec urlScheme urlHostname
  have e1 : (([] : List Char) == "http".data) = false := by decide
  have e2 : (([] : List Char) == "https".data) = false := by decide
  by_cases hb : bracketMismatch (netlocOf (splitScheme s.data).2) = true
  · simp [hb]
  · rw [Bool.not_eq_true] at hb
    by_cases hse : (splitScheme s.data).1.isEmpty = true
    · have h0 : (splitScheme s.data).1 = [] := by simpa [List.isEmpty_iff] using hse
      simp [hb, hse, h0, mk_beq_eq, e1, e2]
    · rw [Bool.not_eq_true] at hse
      by_cases hne : (netlocOf (splitScheme s.data).2).isEmpty = true
      · simp [hb, hse, hne]
      · rw [Bool.not_eq_true] at hne
        by_cases hsch : ((splitScheme s.data).1 == "http".data ||
            (splitScheme s.data).1 == "https".data) = true
        · cases hh : hostnameOf (netlocOf (splitScheme s.data).2) with
          | none => simp [hb, hse, hne, hsch, hh, mk_beq_eq, Bool.and_assoc, isPrefixOf_eq_decide]
          | some h0 =>
            simp [hb, hse, hne, hsch, hh, mk_beq_eq, Bool.and_assoc, isPrefixOf_eq_decide]
        · rw [Bool.not_eq_true, Bool.or_eq_false_iff] at hsch
          simp [hb, hse, hne, hsch.1, hsch.2, mk_beq_eq]

/-- C1: for a `/play` request with a validated stream URL and a selected
device, the handler chooses passthrough (`needs_transcoding = false`) if
and only if the format was detected, the stored device capabilities report
native support for it, and the source URL's scheme is not `https`
(the source tests `stream_url.lower().startswith('https://')`, which under
validation coincides with the parsed scheme being `https`); the success
response reports the `transcoding` flag equal to the decision, and in
passthrough mode its `playback_url` is the original `stream_url`. -/
theorem play_passthrough_iff (streamUrl transcodedUrl : String) (fmt : Option String)
    (caps : Option Capabilities)
    (hv : validate_stream_url streamUrl = true) :
    (play_decision fmt caps streamUrl = false ↔
      ∃ f c, fmt = some f ∧ caps = some c ∧ can_play_format c f = true ∧
        urlScheme streamUrl ≠ "https") ∧
    (play_success_response fmt caps streamUrl transcodedUrl).transcoding =
      play_decision fmt caps streamUrl ∧
    (play_decision fmt caps streamUrl = false →
      (play_success_response fmt caps streamUrl transcodedUrl).playback_url = streamUrl) := by
  have hhttps := is_https_url_eq streamUrl hv
  have hscheme : urlScheme streamUrl = "https" ↔
      (splitScheme streamUrl.data).1 = "https".data := by
    unfold urlScheme
    rw [String.ext_iff]
  refine ⟨?_, rfl, ?_⟩
  · cases fmt with
    | none => simp [play_decision]
    | some f =>
      by_cases hf : f.isEmpty = true
      · have hfe : f = "" := by
          cases f with
          | mk d => simpa [String.isEmpty_iff] using hf
        subst hfe
        simp only [play_decision, if_pos hf]
        constructor
        · intro hdec; exact absurd hdec (by simp)
        · rintro ⟨f', c', hf', hc', hcan, -⟩
          cases hf'
          rw [can_play_format_empty] at hcan
          exact absurd hcan (by simp)
      · cases caps with
        | none =>
          simp only [play_decision, if_neg hf]
          constructor
          · intro hdec; exact absurd hdec (by simp)
          · rintro ⟨f', c', -, hc', -, -⟩; cases hc'
        | some c =>
          simp only [play_decision, if_neg hf]
          constructor
          · intro hdec
            by_cases hcp : (can_play_format c f && !is_https_url streamUrl) = true
            · have hcan := Bool.and_eq_true_iff.mp hcp
              refine ⟨f, c, rfl, rfl, hcan.1, ?_⟩
              intro hcontra
              rw [hscheme] at hcontra
              rw [hhttps] at hcan
              rw [hcontra] at hcan
              simp at hcan
            · rw [if_neg hcp] at hdec
              exact absurd hdec (by simp)
          · rintro ⟨f', c', hf', hc', hcan, hns⟩
            cases hf'
            cases hc'
            have hhf : is_https_url streamUrl = false := by
              rw [hhttps, beq_eq_false_iff_ne]
              intro hcontra
              exact hns (hscheme.mpr hcontra)
            rw [if_pos (by rw [hcan, hhf]; rfl)]
  · intro hdec
    simp [play_success_response, hdec]

/-- C1 witness: a device with native MP3 support, a detected `audio/mpeg`
format and an `http` source yield the passthrough decision. -/
theorem play_passthrough_iff_witness :
    play_decision (some "audio/mpeg") (some ⟨true, false, false, false, false, none⟩)
      "http://stream.example.com/radio" = false :=
  ((play_passthrough_iff "http://stream.example.com/radio"
      "http://10.0.0.1:8000/stream.mp3" (some "audio/mpeg")
      (some ⟨true, false, false, false, false, none⟩) (by decide)).1).mpr
    ⟨"audio/mpeg", ⟨true, false, false, false, false, none⟩, rfl, rfl, by decide, by decide⟩

/-- A single `replace` pass distributes over append. -/
theorem escStep_append (c : Char) (rep a b : List Char) :
    escStep c rep (a ++ b) = escStep c rep a ++ escStep c rep b := by
  simp [escStep]

/-- The whole escaping chain distributes over append. -/
theorem escAll_append (a b : List Char) : escAll (a ++ b) = escAll a ++ escAll b := by
  simp [escAll, escStep_append]

/-- On a single character the escaping chain is exactly the per-character
entity substitution. -/
theorem escAll_single (x : Char) : escAll [x] = escCharSpec x := by
  by_cases h1 : x = '&'
  · subst h1; decide
  · by_cases h2 : x = '<'
    · subst h2; decide
    · by_cases h3 : x = '>'
      · subst h3; decide
      · by_cases h4 : x = '"'
        · subst h4; decide
        · by_cases h5 : x = '\''
          · subst h5; decide
          · simp [escAll, escStep, escCharSpec, h1, h2, h3, h4, h5]

/-- The sequential `replace` chain of the source equals the per-character
entity substitution: later passes never disturb the entities introduced by
earlier ones. -/
theorem escAll_eq_flatMap (l : List Char) : escAll l = l.flatMap escCharSpec := by
  induction l with
  | nil => rfl
  | cons x xs ih =>
    rw [show x :: xs = [x] ++ xs from rfl, escAll_append, ih, List.flatMap_append,
      escAll_single, List.flatMap_singleton]

/-- No escaped character image contains a raw angle bracket. -/
theorem escCharSpec_no_angles (x : Char) : '<' ∉ escCharSpec x ∧ '>' ∉ escCharSpec x := by
  by_cases h1 : x = '&'
  · subst h1; decide
  · by_cases h2 : x = '<'
    · subst h2; decide
    · by_cases h3 : x = '>'
      · subst h3; decide
      · by_cases h4 : x = '"'
        · subst h4; decide
        · by_cases h5 : x = '\''
          · subst h5; decide
          · simp only [escCharSpec, h1, h2, h3, h4, h5, if_false]
            constructor
            · intro hm; rw [List.mem_singleton] at hm; exact h2 hm.symm
            · intro hm; rw [List.mem_singleton] at hm; exact h3 hm.symm

/-- `pyXmlEscape` is the per-character entity substitution and leaves no
raw `<` or `>` in its output. -/
theorem pyXmlEscape_props (s : String) :
    (pyXmlEscape s).data = s.data.flatMap escCharSpec ∧
    '<' ∉ (pyXmlEscape s).data ∧ '>' ∉ (pyXmlEscape s).data := by
  refine ⟨escAll_eq_flatMap s.data, ?_, ?_⟩
  · intro hm
    have hm' : '<' ∈ s.data.flatMap escCharSpec := by
      rw [← escAll_eq_flatMap]; exact hm
    rw [List.mem_flatMap] at hm'
    obtain ⟨x, -, hx⟩ := hm'
    exact (escCharSpec_no_angles x).1 hx
  · intro hm
    have hm' : '>' ∈ s.data.flatMap escCharSpec := by
      rw [← escAll_eq_flatMap]; exact hm
    rw [List.mem_flatMap] at hm'
    obtain ⟨x, -, hx⟩ := hm'
    exact (escCharSpec_no_angles x).2 hx

/-- The metadata string laid out as a flat concatenation. -/
theorem build_didl_metadata_data (caps : Option Capabilities) (url title mime : String) :
    (build_didl_metadata caps url title mime).data =
      didlHead.data ++ (pyXmlEscape title).data ++ didlAfterTitle.data ++
      (protocolInfoResolved caps mime).data ++ didlAfterProto.data ++
      (pyXmlEscape url).data ++ didlTail.data := by
  simp [build_didl_metadata, String.data_append]

/-- A declared protocolInfo result comes from the stored Sink list: it is a
stripped Sink entry whose content-format field matches one of the MIME
aliases and which offers `http-get`. -/
theorem get_protocol_info_some (caps : Option Capabilities) (mime : String) (p : String)
    (h : get_protocol_info_for_mime caps mime = some p) :
    ∃ c raw, caps = some c ∧ c.raw_protocol_info = some raw ∧
      ∃ al ∈ mimeAliases mime, ∃ e ∈ splitOnChar ',' raw.data,
        protoMatches al e = true ∧ p.data = pyStrip e := by
  cases caps with
  | none => simp [get_protocol_info_for_mime] at h
  | some c =>
    cases hr : c.raw_protocol_info with
    | none => simp [get_protocol_info_for_mime, hr] at h
    | some raw =>
      simp only [get_protocol_info_for_mime, hr] at h
      by_cases he : raw.isEmpty = true
      · simp [he] at h
      · simp only [he, if_false, Bool.false_eq_true] at h
        rw [Option.map_eq_some'] at h
        obtain ⟨pl, hfs, hmk⟩ := h
        obtain ⟨al, hal, hf⟩ := List.exists_of_findSome?_eq_some hfs
        rw [Option.map_eq_some'] at hf
        obtain ⟨e0, hfind, hstrip⟩ := hf
        refine ⟨c, raw, rfl, hr, al, hal, e0, List.mem_of_find?_eq_some hfind,
          List.find?_some hfind, ?_⟩
        rw [← hmk]
        exact hstrip.symm

/-- C5: in the DIDL-Lite metadata `_build_didl_metadata` produces, the
title and URL appear through the escaping chain, which is exactly
per-character XML-entity substitution of `&`, `<`, `>`, `"`, `'` and
leaves no raw `<`/`>` in the escaped text; when the stored capabilities
declare an exact `http-get` protocolInfo for the target MIME type (trying
the MIME aliases in the fixed preference order, `audio/mp4` before
`audio/aac` for AAC), that literal stripped Sink entry is the value of the
`res` protocolInfo attribute; when they do not, the synthesized
protocolInfo — carrying the DLNA profile name of the MIME family and the
fixed `DLNA.ORG` streaming flags — appears instead. -/
theorem didl_metadata_escaping_and_protocol_info (caps : Option Capabilities)
    (url title mime : String) :
    ((pyXmlEscape title).data <:+: (build_didl_metadata caps url title mime).data) ∧
    ((pyXmlEscape url).data <:+: (build_didl_metadata caps url title mime).data) ∧
    (∀ s : String, (pyXmlEscape s).data = s.data.flatMap escCharSpec ∧
      '<' ∉ (pyXmlEscape s).data ∧ '>' ∉ (pyXmlEscape s).data) ∧
    (∀ p, get_protocol_info_for_mime caps mime = some p →
      (p.data <:+: (build_didl_metadata caps url title mime).data) ∧
      ∃ c raw, caps = some c ∧ c.raw_protocol_info = some raw ∧
        ∃ al ∈ mimeAliases mime, ∃ e ∈ splitOnChar ',' raw.data,
          protoMatches al e = true ∧ p.data = pyStrip e) ∧
    (get_protocol_info_for_mime caps mime = none →
      ((synthProtocolInfo mime).data <:+: (build_didl_metadata caps url title mime).data) ∧
      ((dlnaProfileName mime).data <:+: (synthProtocolInfo mime).data) ∧
      (dlnaFlagsSuffix.data <:+: (synthProtocolInfo mime).data)) ∧
    mimeAliases "audio/aac" = ["audio/mp4", "audio/aac", "audio/aacp", "audio/x-aac"].map
      String.data := by
  refine ⟨?_, ?_, fun s => pyXmlEscape_props s, ?_, ?_, by decide⟩
  · exact ⟨didlHead.data,
      didlAfterTitle.data ++ (protocolInfoResolved caps mime).data ++ didlAfterProto.data ++
        (pyXmlEscape url).data ++ didlTail.data,
      by simp [build_didl_metadata_data, List.append_assoc]⟩
  · exact ⟨didlHead.data ++ (pyXmlEscape title).data ++ didlAfterTitle.data ++
        (protocolInfoResolved caps mime).data ++ didlAfterProto.data,
      didlTail.data,
      by simp [build_didl_metadata_data, List.append_assoc]⟩
  · intro p hp
    refine ⟨?_, get_protocol_info_some caps mime p hp⟩
    have hres : protocolInfoResolved caps mime = p := by
      unfold protocolInfoResolved
      rw [hp]
    exact ⟨didlHead.data ++ (pyXmlEscape title).data ++ didlAfterTitle.data,
      didlAfterProto.data ++ (pyXmlEscape url).data ++ didlTail.data,
      by simp [build_didl_metadata_data, hres, List.append_assoc]⟩
  · intro hp
    have hres : protocolInfoResolved caps mime = synthProtocolInfo mime := by
      unfold protocolInfoResolved
      rw [hp]
    refine ⟨⟨didlHead.data ++ (pyXmlEscape title).data ++ didlAfterTitle.data,
      didlAfterProto.data ++ (pyXmlEscape url).data ++ didlTail.data,
      by simp [build_didl_metadata_data, hres, List.append_assoc]⟩, ?_, ?_⟩
    · exact ⟨"http-get:*:".data ++ mime.data ++ ":DLNA.ORG_PN=".data, dlnaFlagsSuffix.data,
        by simp [synthProtocolInfo, String.data_append, List.append_assoc]⟩
    · exact ⟨"http-get:*:".data ++ mime.data ++ ":DLNA.ORG_PN=".data ++
        (dlnaProfileName mime).data, [],
        by simp [synthProtocolInfo, String.data_append, List.append_assoc]⟩

/-- Capabilities round-trip through the JSON document. -/
theorem decode_encode_capabilities (c : Capabilities) :
    decodeCapabilities (encodeCapabilities c) = some c := by
  cases c with
  | mk m3 ma mf mw mo raw =>
    cases raw <;>
      simp [encodeCapabilities, decodeCapabilities, jget, encodeOptStr, asBool, asOptStr,
        List.find?]

/-- `jdecodeOpt` on `null`. -/
theorem jdecodeOpt_null {α : Type} (dec : Json → Option α) :
    jdecodeOpt dec Json.null = some none := rfl

/-- `jdecodeOpt asNum` on a number. -/
theorem jdecodeOpt_num (n : Nat) : jdecodeOpt asNum (Json.num n) = some (some n) := rfl

/-- `jdecodeOpt` on an object-shaped value that decodes. -/
theorem jdecodeOpt_of_obj {α : Type} (dec : Json → Option α) (j : Json) (x : α)
    (hobj : ∃ fl, j = Json.obj fl) (hdec : dec j = some x) :
    jdecodeOpt dec j = some (some x) := by
  obtain ⟨fl, rfl⟩ := hobj
  simp [jdecodeOpt, hdec]

/-- Device records round-trip through the JSON document. -/
theorem decode_encode_device (d : Device) : decodeDevice (encodeDevice d) = some d := by
  obtain ⟨did, fn, mfr, mdl, ip, port, loc, cu, cmu, udn, caps⟩ := d
  cases caps with
  | none =>
    cases did <;>
      simp [encodeDevice, decodeDevice, jget, encodeOptStr, asStr, asOptStr, List.find?,
        jdecodeOpt_null]
  | some c =>
    have hc := jdecodeOpt_of_obj decodeCapabilities (encodeCapabilities c) c ⟨_, rfl⟩
      (decode_encode_capabilities c)
    cases did <;>
      simp [encodeDevice, decodeDevice, jget, encodeOptStr, asStr, asOptStr, List.find?, hc]

/-- Device lists round-trip through the JSON document. -/
theorem decode_encode_device_list (l : List Device) :
    (l.map encodeDevice).mapM decodeDevice = some l := by
  induction l with
  | nil => rfl
  | cons d ds ih =>
    rw [List.map_cons, List.mapM_cons, decode_encode_device, ih]
    rfl

/-- The registry's whole state document round-trips. -/
theorem decode_encode_state (m : DMState) : decodeDMState (encodeDMState m) = some m := by
  obtain ⟨cur, cache, lst⟩ := m
  have hml : List.mapM.loop decodeDevice (List.map encodeDevice cache) [] = some cache :=
    decode_encode_device_list cache
  cases cur with
  | none =>
    cases lst <;>
      simp [encodeDMState, decodeDMState, jget, List.find?, hml,
        jdecodeOpt_null, jdecodeOpt_num]
  | some d =>
    have hd := jdecodeOpt_of_obj decodeDevice (encodeDevice d) d ⟨_, rfl⟩
      (decode_encode_device d)
    cases lst <;>
      simp [encodeDMState, decodeDMState, jget, List.find?, hml,
        jdecodeOpt_null, jdecodeOpt_num, hd]

/-- C6: after `select_device(d)` succeeds, a subsequent
`get_current_device()` — whether through the same manager's new state or
through a second, independent manager in any prior state, both backed by
the store the selection wrote — returns a device equal on all fields to
`d`, via the round-trip through the persisted JSON document (every read
reloads the backing store first). -/
theorem select_then_get_roundtrip (m1 m2 : DMState) (d : Device) :
    (dm_get_current_device m2 (dm_select_device m1 d).2).1 = some d ∧
    (dm_get_current_device (dm_select_device m1 d).1 (dm_select_device m1 d).2).1 = some d := by
  constructor <;>
    simp [dm_get_current_device, dm_select_device, dm_load_state, decode_encode_state]

/-- C7 counterexample: the Stream Format Cache does not match the claim.
Its persisting write is a single in-place write of the cache file (no
write-to-temp-then-rename), and its `get` never re-reads the backing
store: with an empty in-memory dict, `get` returns nothing even though the
backing store holds a fresh (unexpired: `10 - 5 ≤ 86400`) entry for the
requested URL. -/
theorem stream_cache_not_atomic_no_reload :
    isAtomicTempWrite "stream_format_cache.json"
      (sc_save_cache_ops "stream_format_cache.json" 86400 10
        [(cacheKey "http://radio.example.com/a", cexEntry)]).1 = false ∧
    (sc_save_cache_ops "stream_format_cache.json" 86400 10
        [(cacheKey "http://radio.example.com/a", cexEntry)]).1 =
      [FsOp.write "stream_format_cache.json"
        (encodeCacheMap [(cacheKey "http://radio.example.com/a", cexEntry)])] ∧
    (sc_get [] (some (encodeCacheMap [(cacheKey "http://radio.example.com/a", cexEntry)]))
      10 86400 "http://radio.example.com/a").1 = none ∧
    (sc_get [(cacheKey "http://radio.example.com/a", cexEntry)] none
      10 86400 "http://radio.example.com/a").1 = some cexEntry ∧
    10 - cexEntry.timestamp ≤ 86400 := by
  exact ⟨rfl, rfl, rfl, rfl, by decide⟩

/-- C7 amended: the Device Registry's store performs every persisting
write as an atomic write-to-temp-then-rename and re-reads the backing
store before returning on reads; the Stream Format Cache instead persists
with a single in-place write of its file (no temporary, no rename) and
serves reads from its in-memory dict without re-reading the backing
store. -/
theorem persistence_write_read_discipline :
    (∀ (sf : String) (m : DMState), isAtomicTempWrite sf (dm_save_state_ops sf m) = true) ∧
    (∀ (m doc : DMState),
      (dm_get_current_device m (some (encodeDMState doc))).1 = doc.current_device) ∧
    (∀ (cf : String) (ttl now : Nat) (cache : CacheMap),
      (sc_save_cache_ops cf ttl now cache).1 =
        [FsOp.write cf (encodeCacheMap (cleanupExpired ttl now cache))] ∧
      isAtomicTempWrite cf (sc_save_cache_ops cf ttl now cache).1 = false) ∧
    (∀ (mem : CacheMap) (disk1 disk2 : Option Json) (now ttl : Nat) (url : String),
      sc_get mem disk1 now ttl url = sc_get mem disk2 now ttl url) := by
  refine ⟨fun sf m => ?_, fun m doc => ?_, fun cf ttl now cache => ⟨rfl, rfl⟩,
    fun mem d1 d2 now ttl url => rfl⟩
  · have hne : (sf ++ ".tmp" == sf) = false := by
      rw [beq_eq_false_iff_ne]
      intro h
      have hlen := congrArg String.length h
      have h4 : (".tmp" : String).length = 4 := rfl
      rw [String.length_append, h4] at hlen
      omega
    simp [isAtomicTempWrite, dm_save_state_ops, hne]
  · simp [dm_get_current_device, dm_load_state, decode_encode_state]

/-- The location-gathering loop never accumulates a duplicate. -/
theorem collectLocations_nodup (resps : List String) : (collectLocations resps).Nodup := by
  have key : ∀ (rs : List String) (acc : List String), acc.Nodup →
      (rs.foldl (fun acc r =>
        match parseLocationHeader r with
        | none => acc
        | some loc =>
          if loc.isEmpty then acc
          else if loc ∈ acc then acc else acc ++ [loc]) acc).Nodup := by
    intro rs
    induction rs with
    | nil => intro acc h; simpa using h
    | cons r rs ih =>
      intro acc h
      rw [List.foldl_cons]
      apply ih
      cases parseLocationHeader r with
      | none => simpa using h
      | some loc =>
        by_cases he : loc.isEmpty = true
        · simpa [he] using h
        · by_cases hm : loc ∈ acc
          · simpa [he, hm] using h
          · simp only [he, hm, if_false, Bool.false_eq_true, if_neg]
            refine List.Nodup.append h (List.nodup_singleton loc) ?_
            intro a ha hb
            rw [List.mem_singleton] at hb
            subst hb
            exact hm ha
  exact key resps [] List.nodup_nil

/-- A device `_fetch_device_info` returns carries the location it was
fetched from. -/
theorem fetch_device_info_location (loc : String) (desc : DeviceDescription) (d : Device)
    (h : fetch_device_info loc desc = some d) : d.location = loc := by
  unfold fetch_device_info at h
  split at h
  · simp only [ite_self] at h
    injection h with h2
    subst h2
    rfl
  · by_cases hc : ((avtControlUrl loc desc).isEmpty ||
        ("/AVTransport/ctrl".data : List Char).isSuffixOf (avtControlUrl loc desc).data) = true
    · simp [hc] at h
    · simp [hc] at h
      subst h
      rfl

/-- A description declaring no `AVTransport` service is dropped by
`_fetch_device_info`: the control-URL search falls back to the default
path, which ends in `/AVTransport/ctrl`, so the verification loop runs and
finds no `AVTransport` service. -/
theorem fetch_device_info_no_avt (loc : String) (desc : DeviceDescription)
    (h : hasAVTService desc.services = false) : fetch_device_info loc desc = none := by
  have hall := List.any_eq_false.mp h
  have hfind : desc.services.findSome? (fun s =>
      match s.serviceType, s.controlURL with
      | some t, some p =>
        if containsSub "AVTransport".data t.data then
          some (resolveControlPath (urlScheme loc) (discoveredHost loc)
            (discoveredPort loc) p)
        else none
      | _, _ => none) = none := by
    rw [List.findSome?_eq_none_iff]
    intro s hs
    have hns := hall s hs
    cases hst : s.serviceType with
    | none => cases s.controlURL <;> simp
    | some t =>
      rw [hst] at hns
      simp only [Bool.not_eq_true] at hns
      cases s.controlURL <;> simp [hns]
  have hcu : avtControlUrl loc desc = urlScheme loc ++ "://" ++ discoveredHost loc ++ ":" ++
      toString (discoveredPort loc) ++ "/AVTransport/ctrl" := by
    unfold avtControlUrl findServiceControlUrl
    rw [hfind]
  have hsuf : ("/AVTransport/ctrl".data : List Char).isSuffixOf
      (avtControlUrl loc desc).data = true := by
    rw [hcu, List.isSuffixOf_iff_suffix, String.data_append]
    exact List.suffix_append _ _
  unfold fetch_device_info
  simp [hsuf, h]

/-- Among devices built from distinct locations, at most one matches any
given location. -/
theorem filterMap_location_count (locs : List String) (g : String → Option Device)
    (hg : ∀ l d, g l = some d → d.location = l) (hnd : locs.Nodup) (loc : String) :
    ((locs.filterMap g).filter (fun d => d.location == loc)).length ≤ 1 := by
  induction locs with
  | nil => simp
  | cons l ls ih =>
    rw [List.nodup_cons] at hnd
    rw [List.filterMap_cons]
    cases hgl : g l with
    | none => exact ih hnd.2
    | some d =>
      rw [List.filter_cons]
      by_cases hd : (d.location == loc) = true
      · rw [if_pos hd]
        have hempty : (ls.filterMap g).filter (fun d2 => d2.location == loc) = [] := by
          rw [List.filter_eq_nil_iff]
          intro d2 hd2
          rw [List.mem_filterMap] at hd2
          obtain ⟨l2, hl2, hg2⟩ := hd2
          rw [beq_iff_eq] at hd ⊢
          intro hcontra
          rw [hg l2 d2 hg2] at hcontra
          rw [hg l d hgl] at hd
          rw [← hd] at hcontra
          subst hcontra
          exact hnd.1 hl2
        rw [hempty]
        simp
      · rw [if_neg hd]
        exact ih hnd.2

/-- C8: `discover` excludes every device whose description declares no
`AVTransport` service, even when it answered the MediaRenderer SSDP
search (such a location contributes nothing to the result); and the
deduplicated location list has no duplicates, so responses sharing a
`LOCATION` value contribute at most one device to the result. -/
theorem discover_filter_and_dedup (resps : List String)
    (fetch : String → Option DeviceDescription) :
    (collectLocations resps).Nodup ∧
    (∀ loc desc, fetch loc = some desc → hasAVTService desc.services = false →
      (fetch loc).bind (fetch_device_info loc) = none ∧
      ∀ d ∈ discover resps fetch, d.location ≠ loc) ∧
    (∀ loc, ((discover resps fetch).filter (fun d => d.location == loc)).length ≤ 1) := by
  have hg : ∀ (l : String) (d : Device),
      (fetch l).bind (fetch_device_info l) = some d → d.location = l := by
    intro l d hbind
    rw [Option.bind_eq_some] at hbind
    obtain ⟨desc, -, hfdi⟩ := hbind
    exact fetch_device_info_location l desc d hfdi
  refine ⟨collectLocations_nodup resps, fun loc desc hf hno => ?_, fun loc => ?_⟩
  · have hnone : (fetch loc).bind (fetch_device_info loc) = none := by
      rw [hf, Option.some_bind]
      exact fetch_device_info_no_avt loc desc hno
    refine ⟨hnone, fun d hd hcontra => ?_⟩
    unfold discover at hd
    rw [List.mem_filterMap] at hd
    obtain ⟨l2, -, hg2⟩ := hd
    have : l2 = loc := by rw [← hcontra, hg l2 d hg2]
    subst this
    rw [hnone] at hg2
    cases hg2
  · exact filterMap_location_count (collectLocations resps) _ hg
      (collectLocations_nodup resps) loc

/-- C8 witness: a concrete MediaServer-only description (no `AVTransport`
service) fetched from a deduplicated location yields no device. -/
theorem discover_filter_and_dedup_witness :
    fetch_device_info "http://192.168.1.9:8080/description.xml"
      ⟨"NAS", "Acme", "X2", "uuid:def",
        [⟨some "urn:schemas-upnp-org:service:ContentDirectory:1", some "/CD/ctrl"⟩]⟩ = none :=
  ((discover_filter_and_dedup
    ["HTTP/1.1 200 OK\r\nLOCATION: http://192.168.1.9:8080/description.xml\r\n"]
    (fun l => if l == "http://192.168.1.9:8080/description.xml" then
        some (⟨"NAS", "Acme", "X2", "uuid:def",
          [⟨some "urn:schemas-upnp-org:service:ContentDirectory:1", some "/CD/ctrl"⟩]⟩ :
          DeviceDescription)
      else none)).2.1 "http://192.168.1.9:8080/description.xml"
    ⟨"NAS", "Acme", "X2", "uuid:def",
      [⟨some "urn:schemas-upnp-org:service:ContentDirectory:1", some "/CD/ctrl"⟩]⟩
    (by decide) (by decide)).1

/-- C2: the claim says `validate_ip_address` rejects every string containing
a non-digit/non-dot character or trailing whitespace. The code does not:
Python's `$` anchor (without `re.MULTILINE`) also matches just before one
final newline, and `int()` strips surrounding whitespace, so the string
`"1.2.3.4\n"` — which ends in the whitespace character `'\n'`, a
non-digit — is accepted, contradicting the claim and the function's own
docstring ("only digits and dots"). -/
theorem validate_ip_accepts_trailing_newline :
    validate_ip_address "1.2.3.4\n" = true ∧
    '\n' ∈ "1.2.3.4\n".data ∧ Char.isDigit '\n' = false ∧ Char.isWhitespace '\n' = true := by
  decide

/-- C4: `detect_capabilities` populates the flags by case-insensitive
substring matching over the comma-separated Sink list: a Sink whose entries
include an `audio/mpeg` entry and no AAC-family MIME marker
(`audio/aac`, `audio/x-aac`, `audio/mp4`) yields `supports_mp3 = true` and
`supports_aac = false`; a Sink all of whose entries are `audio/mp4` entries
(and carry no `audio/mpeg`/`audio/mp3` marker) yields `supports_aac = true`
and `supports_mp3 = false`. -/
theorem detect_capabilities_sink_markers (sink : String) :
    ((sinkEntries (some sink)).any (fun e => containsSub "audio/mpeg".data (lowerL e)) = true →
      (sinkEntries (some sink)).all (fun e =>
        !(containsSub "audio/aac".data (lowerL e) || containsSub "audio/x-aac".data (lowerL e) ||
          containsSub "audio/mp4".data (lowerL e))) = true →
      (detect_capabilities (some sink)).supports_mp3 = true ∧
      (detect_capabilities (some sink)).supports_aac = false)
    ∧
    (sinkEntries (some sink) ≠ [] →
      (sinkEntries (some sink)).all (fun e =>
        containsSub "audio/mp4".data (lowerL e) && !containsSub "audio/mpeg".data (lowerL e) &&
          !containsSub "audio/mp3".data (lowerL e)) = true →
      (detect_capabilities (some sink)).supports_aac = true ∧
      (detect_capabilities (some sink)).supports_mp3 = false) := by
  constructor
  · intro hmp3 hnoaac
    rw [List.any_eq_true] at hmp3
    obtain ⟨e, he, hme⟩ := hmp3
    rw [List.all_eq_true] at hnoaac
    constructor
    · simp only [detect_capabilities, List.any_eq_true]
      exact ⟨e, he, by rw [hme]; simp⟩
    · simp only [detect_capabilities, List.any_eq_false]
      intro x hx
      have := hnoaac x hx
      simp only [Bool.not_eq_true', Bool.or_eq_false_iff] at this
      simp [this.1, this.2]
  · intro hne hall
    rw [List.all_eq_true] at hall
    obtain ⟨e, he⟩ := List.exists_mem_of_ne_nil _ hne
    have h1 := hall e he
    simp only [Bool.and_eq_true] at h1
    constructor
    · simp only [detect_capabilities, List.any_eq_true]
      exact ⟨e, he, by simp [h1.1.1]⟩
    · simp only [detect_capabilities, List.any_eq_false]
      intro x hx
      have := hall x hx
      simp only [Bool.and_eq_true, Bool.not_eq_true'] at this
      simp [this.1.2, this.2]

/-- C4 witness: a concrete Sink string with `audio/mpeg` entries and no
AAC-family MIME yields `supports_mp3 = true`, `supports_aac = false`. -/
theorem detect_capabilities_sink_markers_witness :
    (detect_capabilities (some "http-get:*:audio/mpeg:*,http-get:*:audio/flac:*")).supports_mp3 = true ∧
    (detect_capabilities (some "http-get:*:audio/mpeg:*,http-get:*:audio/flac:*")).supports_aac = false :=
  (detect_capabilities_sink_markers "http-get:*:audio/mpeg:*,http-get:*:audio/flac:*").1
    (by decide) (by decide)

/-- C9: when the `GetProtocolInfo` probe fails or the Sink is empty
(`get_protocol_info` returns `None` in both cases — `extract_sink_text`),
`detect_capabilities` returns, and stores on the client, the record with all
five `supports_*` flags false and `raw_protocol_info` the explicit unknown
marker (`None`); being a total function, it raises no error. -/
theorem detect_capabilities_probe_failure (c : DLNAClientState) :
    (client_detect_capabilities c none).2 = unknown_capabilities ∧
    (client_detect_capabilities c none).1.capabilities = some unknown_capabilities ∧
    unknown_capabilities.supports_mp3 = false ∧ unknown_capabilities.supports_aac = false ∧
    unknown_capabilities.supports_flac = false ∧ unknown_capabilities.supports_wav = false ∧
    unknown_capabilities.supports_ogg = false ∧ unknown_capabilities.raw_protocol_info = none ∧
    extract_sink_text none = none ∧ extract_sink_text (some "") = none :=
  ⟨rfl, rfl, rfl, rfl, rfl, rfl, rfl, rfl, rfl, rfl⟩

/-- C10: when `get_transport_info` yields no result, `stop_if_playing`
issues no `Stop` action and returns `True`; and a `Stop` action is sent
exactly when the queried state is `PLAYING` or `PAUSED_PLAYBACK` (in every
other state nothing is sent and `True` is returned). -/
theorem stop_if_playing_states :
    (∀ r : Bool, stop_if_playing none r = (false, true)) ∧
    (∀ (i : TransportInfo) (r : Bool),
      ((stop_if_playing (some i) r).1 = true ↔
        i.state = "PLAYING" ∨ i.state = "PAUSED_PLAYBACK") ∧
      ((stop_if_playing (some i) r).1 = false → stop_if_playing (some i) r = (false, true))) := by
  refine ⟨fun r => rfl, fun i r => ?_⟩
  by_cases h : i.state = "PLAYING" ∨ i.state = "PAUSED_PLAYBACK"
  · simp [stop_if_playing, h]
  · simp [stop_if_playing, h]

end StreamToDlna
